import Mathlib

/-!
Shallow embedding of the UNO game engine from `src/App.tsx` and proofs of the
spec claims about it.  Piles are Lean lists whose LAST element is the "top"
(the source pops with `Array.pop`, i.e. from the end).  The source's
comparator-based random shuffles are modelled by an explicit
`shuffle : List Card → List Card` parameter; theorems assume only that it
permutes its input.  React `setGameState` updates are modelled as functional
record updates applied in program order.  UI-only fields (`message`) are
omitted; everything gameplay-relevant is kept.
-/

namespace Uno

/-- Card colors.  The source's `Color` type also admits `null` (used for wild
cards); that is modelled as `Option UColor` at use sites. -/
inductive UColor
  | red
  | blue
  | green
  | yellow
deriving DecidableEq, Fintype

/-- The source's `CardType`: `'number' | 'action' | 'wild'`. -/
inductive CardType
  | number
  | action
  | wild
deriving DecidableEq

/-- The source's `CardValue`: a number 0-9, `'Skip' | 'Reverse' | 'Draw2'`,
or `'Wild' | 'Wild+4'`.  JavaScript `===` on these values coincides with
structural equality of this inductive. -/
inductive CardValue
  | num (n : Nat)
  | skip
  | reverse
  | draw2
  | wild
  | wildPlus4
deriving DecidableEq

/-- The source's `Card` record.  The source draws a random string id per card
(`randId`); ids are modelled as naturals assigned by construction position,
which preserves exactly what the source relies on: ids give object identity. -/
structure Card where
  id : Nat
  type : CardType
  color : Option UColor
  value : CardValue
deriving DecidableEq

/-- `COLORS` constant of the source. -/
def COLORS : List UColor := [.red, .blue, .green, .yellow]

/-- `ACTION_CARDS` constant of the source. -/
def ACTION_CARDS : List CardValue := [.skip, .reverse, .draw2]

/-- The un-shuffled deck contents in the construction order of `generateDeck`:
per color the numbers 0-9 (0 once, 1-9 twice), then per color two of each
action card, then four `Wild` and four `Wild+4` (interleaved, as the source's
loop pushes one of each per iteration). -/
def rawDeck : List (CardType × Option UColor × CardValue) :=
  (COLORS.flatMap fun color =>
    (List.range 10).flatMap fun n =>
      if n = 0 then [(CardType.number, some color, CardValue.num n)]
      else [(CardType.number, some color, CardValue.num n),
            (CardType.number, some color, CardValue.num n)])
  ++ (COLORS.flatMap fun color =>
        ACTION_CARDS.flatMap fun action =>
          [(CardType.action, some color, action), (CardType.action, some color, action)])
  ++ ((List.range 4).flatMap fun _ =>
        [(CardType.wild, none, CardValue.wild), (CardType.wild, none, CardValue.wildPlus4)])

/-- The deck before shuffling, with ids assigned by position. -/
def baseDeck : List Card :=
  rawDeck.enum.map fun p => { id := p.1, type := p.2.1, color := p.2.2.1, value := p.2.2.2 }

/-- `generateDeck` of the source: build the 108 cards and return them in
shuffled order (`deck.sort(() => Math.random() - 0.5)`), the shuffle being the
explicit parameter here. -/
def generateDeck (shuffle : List Card → List Card) : List Card :=
  shuffle baseDeck

/-- `canCardBePlayed(card, topCard, activeColor)` of the source, including its
guard for `undefined` arguments (modelled as `none`). -/
def canCardBePlayed (card topCard : Option Card) (activeColor : Option UColor) : Bool :=
  match card, topCard with
  | none, _ => false
  | _, none => false
  | some c, some t =>
    if c.type = CardType.wild then true
    else if c.color = activeColor then true
    else if c.value = t.value then true
    else false

/-- One iteration structure of the `for` loop in `drawCardsFromDeck`, with the
loop counter as fuel.  Each iteration: if the deck is empty and the discard has
more than one card, the new deck becomes the shuffled discard-minus-top (if the
discard has at most one card, the loop breaks); then, if the (possibly
recycled) deck is non-empty, one card is popped from its end into the result.
The discard argument is only read, never rebuilt, exactly as in the source. -/
def drawLoop (shuffle : List Card → List Card) :
    Nat → List Card → List Card → List Card × List Card
  | 0, deck, _ => ([], deck)
  | n + 1, deck, discard =>
    match deck with
    | [] =>
      if discard.length > 1 then
        match shuffle discard.dropLast with
        | [] => drawLoop shuffle n [] discard
        | b :: u =>
          let c := (b :: u).getLast (List.cons_ne_nil b u)
          let r := drawLoop shuffle n ((b :: u).dropLast) discard
          (c :: r.1, r.2)
      else ([], [])
    | a :: t =>
      let c := (a :: t).getLast (List.cons_ne_nil a t)
      let r := drawLoop shuffle n ((a :: t).dropLast) discard
      (c :: r.1, r.2)

/-- `drawCardsFromDeck(count, currentDeck, currentDiscard)` of the source:
returns the cards drawn (in draw order) and the remaining deck. -/
def drawCardsFromDeck (shuffle : List Card → List Card)
    (count : Nat) (currentDeck currentDiscard : List Card) : List Card × List Card :=
  drawLoop shuffle count currentDeck currentDiscard

/-- The fixed clockwise seat ring of the source: `[0, 3, 1, 2]`. -/
def clockwiseOrder : List Nat := [0, 3, 1, 2]

/-- `getNextPlayerIdx(currentIdx, dir)` of the source: locate the seat on the
clockwise ring and step one position forward (`dir = 1`) or backward
(`dir = -1`), wrapping modulo 4.  Position arithmetic is done in `Int`,
mirroring JavaScript's `(p - 1 + 4) % 4`. -/
def getNextPlayerIdx (currentIdx : Nat) (dir : Int) : Nat :=
  let currentPosition : Int := (clockwiseOrder.indexOf currentIdx : Nat)
  let nextPosition : Int :=
    if dir = 1 then (currentPosition + 1) % 4 else (currentPosition - 1 + 4) % 4
  clockwiseOrder.getD nextPosition.toNat 0

/-- The source's `GameState`, minus the UI-only `message` string.  `hands` is a
list of four hands; `direction` is `1` or `-1`; `winner` is the winning seat
once `gameOver` is set. -/
structure GameState where
  deck : List Card
  discard : List Card
  hands : List (List Card)
  currentColor : Option UColor
  currentPlayerIdx : Nat
  direction : Int
  gameOver : Bool
  winner : Option Nat
  selectedColor : Option UColor
  selectedCards : List Nat
  skipNextPlayer : Bool
deriving DecidableEq

/-- Result of the shared special-effect block (`Skip` / `Reverse` / `Draw2` /
`Wild+4` handling), lines 285-302 and 371-386 of the source, which are
identical up to the acting seat: the provisional-or-adjusted next seat, the
local `skipNext` flag, the (possibly flipped) direction, and the hands after
any penalty draw. -/
structure EffectResult where
  nextPlayerIdx : Nat
  skipNext : Bool
  newDirection : Int
  newHands : List (List Card)
deriving DecidableEq

/-- The special-effect block.  Note the two faithful quirks of the source:
the penalty branches call `drawCardsFromDeck` but keep only the drawn cards
(the updated deck is discarded by the caller), and the drawing seat is *not*
skipped (`skipNext` stays false for `Draw2` / `Wild+4`). -/
def applyCardEffects (shuffle : List Card → List Card) (seatIdx : Nat) (dir : Int)
    (deck : List Card) (cardsToPlay : List Card) (lastCard : Card)
    (newDiscard : List Card) (hands : List (List Card)) : EffectResult :=
  let nextPlayerIdx := getNextPlayerIdx seatIdx dir
  if lastCard.value = CardValue.skip then
    ⟨nextPlayerIdx, true, dir, hands⟩
  else if lastCard.value = CardValue.reverse then
    let nd : Int := if dir = 1 then -1 else 1
    ⟨getNextPlayerIdx seatIdx nd, false, nd, hands⟩
  else if lastCard.value = CardValue.draw2 then
    let cnt := (cardsToPlay.filter fun c => decide (c.value = CardValue.draw2)).length * 2
    let drawn := (drawCardsFromDeck shuffle cnt deck newDiscard).1
    ⟨nextPlayerIdx, false, dir, hands.set nextPlayerIdx ((hands.getD nextPlayerIdx []) ++ drawn)⟩
  else if lastCard.value = CardValue.wildPlus4 then
    let cnt := (cardsToPlay.filter fun c => decide (c.value = CardValue.wildPlus4)).length * 4
    let drawn := (drawCardsFromDeck shuffle cnt deck newDiscard).1
    ⟨nextPlayerIdx, false, dir, hands.set nextPlayerIdx ((hands.getD nextPlayerIdx []) ++ drawn)⟩
  else
    ⟨nextPlayerIdx, false, dir, hands⟩

/-- `selectedCards.map((i) => hands[0][i]).filter(Boolean)` of
`handlePlayerPlay`: the selected hand indices resolved to cards, dangling
indices dropped. -/
def resolveSelection (s : GameState) : List Card :=
  s.selectedCards.filterMap fun i => (s.hands.getD 0 [])[i]?

/-- `hands[0].filter((_, i) => !selectedCards.includes(i))`: the human hand
with the selected positions removed. -/
def handSansSelected (hand : List Card) (sel : List Nat) : List Card :=
  (hand.enum.filter fun p => ! decide (p.1 ∈ sel)).map Prod.snd

/-- `handlePlayerPlay` of the source (the human `playSelection` operation).
Guard order is the source's: wrong seat / game over, empty selection, empty
resolved selection, mixed ranks among several cards, unplayable leading card,
wild with no chosen color; then the play commits.  On commit the source spreads
`prev` and explicitly writes `deck: prev.deck`, so any penalty cards drawn via
`drawCardsFromDeck` are *not* removed from the deck. -/
def handlePlayerPlay (shuffle : List Card → List Card) (s : GameState) : GameState :=
  if s.currentPlayerIdx ≠ 0 ∨ s.gameOver = true then s
  else if s.selectedCards.length = 0 then s
  else
    match resolveSelection s with
    | [] => { s with selectedCards := [] }
    | first :: rest =>
      if (first :: rest).length > 1
          && ! ((first :: rest).all fun c => decide (c.value = first.value)) then
        { s with selectedCards := [] }
      else if ! canCardBePlayed (some first) s.discard.getLast? s.currentColor then
        { s with selectedCards := [] }
      else if first.type = CardType.wild ∧ s.selectedColor = none then s
      else
        let newHand0 := handSansSelected (s.hands.getD 0 []) s.selectedCards
        let newHands := s.hands.set 0 newHand0
        let newDiscard := s.discard ++ (first :: rest)
        let lastCard := (first :: rest).getLast?.getD first
        let newColor := if lastCard.type = CardType.wild then s.selectedColor else lastCard.color
        if newHand0.length = 0 then
          { s with gameOver := true, winner := some 0, hands := newHands,
                   discard := newDiscard, currentColor := newColor }
        else
          let e := applyCardEffects shuffle 0 s.direction s.deck (first :: rest) lastCard
                     newDiscard newHands
          { s with hands := e.newHands, discard := newDiscard, currentColor := newColor,
                   currentPlayerIdx := e.nextPlayerIdx, direction := e.newDirection,
                   skipNextPlayer := e.skipNext, selectedColor := none, selectedCards := [] }

/-- `handlePlayerDraw` of the source (the human `drawOne` operation). -/
def handlePlayerDraw (shuffle : List Card → List Card) (s : GameState) : GameState :=
  if s.currentPlayerIdx ≠ 0 ∨ s.gameOver = true then s
  else
    let r := drawCardsFromDeck shuffle 1 s.deck s.discard
    { s with hands := s.hands.set 0 ((s.hands.getD 0 []) ++ r.1),
             deck := r.2,
             currentPlayerIdx := getNextPlayerIdx 0 s.direction,
             selectedCards := [] }

/-- The opponent's playable cards: `currentHand.filter(c => canCardBePlayed(c,
topCard, currentColor))`. -/
def oppValidCards (s : GameState) : List Card :=
  (s.hands.getD s.currentPlayerIdx []).filter fun c =>
    canCardBePlayed (some c) s.discard.getLast? s.currentColor

/-- The opponent's chosen stack: the first playable card, extended to all
playable cards of the same rank when there are at least two of them. -/
def oppCardsToPlay (s : GameState) : List Card :=
  match oppValidCards s with
  | [] => []
  | firstCard :: _ =>
    let matchingCards := (oppValidCards s).filter fun c => decide (c.value = firstCard.value)
    if matchingCards.length > 1 then matchingCards else [firstCard]

/-- The opponent's hand after removing the played cards
(`currentHand.filter(card => !cardsToPlay.includes(card))`; `includes` is
object identity, which card ids make structural). -/
def oppNewHands1 (s : GameState) : List (List Card) :=
  s.hands.set s.currentPlayerIdx
    ((s.hands.getD s.currentPlayerIdx []).filter fun card =>
      ! decide (card ∈ oppCardsToPlay s))

/-- The discard after the opponent's play. -/
def oppNewDiscard (s : GameState) : List Card := s.discard ++ oppCardsToPlay s

/-- The opponent-turn effect of the source (the body of the `useEffect` timer,
lines 342-430), as a function of the acting state.  The random wild color pick
`COLORS[Math.floor(Math.random() * 4)]` is the explicit `chosenColor`
parameter.  Faithful quirks: the win check happens *after* the special-effect
block (so a winning `Draw2`/`Wild+4` still penalizes the next seat), the win
commit does not advance the seat or flip direction, and the committed deck in
the play path is the unmodified previous deck (penalty draws are kept only in
the receiving hand). -/
def opponentTurn (shuffle : List Card → List Card) (chosenColor : UColor)
    (s : GameState) : GameState :=
  if s.currentPlayerIdx = 0 ∨ s.gameOver = true then s
  else
    match oppValidCards s with
    | [] =>
      let r := drawCardsFromDeck shuffle 1 s.deck s.discard
      { s with currentPlayerIdx := getNextPlayerIdx s.currentPlayerIdx s.direction,
               hands := s.hands.set s.currentPlayerIdx
                          ((s.hands.getD s.currentPlayerIdx []) ++ r.1),
               deck := r.2 }
    | firstCard :: _ =>
      let lastCard := (oppCardsToPlay s).getLast?.getD firstCard
      let newColor := if lastCard.type = CardType.wild then some chosenColor else lastCard.color
      let e := applyCardEffects shuffle s.currentPlayerIdx s.direction s.deck
                 (oppCardsToPlay s) lastCard (oppNewDiscard s) (oppNewHands1 s)
      if (e.newHands.getD s.currentPlayerIdx []).length = 0 then
        { s with gameOver := true, winner := some s.currentPlayerIdx,
                 hands := e.newHands, discard := oppNewDiscard s, currentColor := newColor }
      else if e.skipNext then
        { s with hands := e.newHands, discard := oppNewDiscard s, currentColor := newColor,
                 direction := e.newDirection,
                 currentPlayerIdx := getNextPlayerIdx e.nextPlayerIdx e.newDirection,
                 skipNextPlayer := false }
      else
        { s with hands := e.newHands, discard := oppNewDiscard s, currentColor := newColor,
                 direction := e.newDirection, currentPlayerIdx := e.nextPlayerIdx,
                 skipNextPlayer := e.skipNext }

/-- `newDeck.splice(-7)` of the source: remove and return the last seven cards
(all of them if fewer remain). -/
def spliceLast7 (l : List Card) : List Card × List Card :=
  (l.drop (l.length - 7), l.take (l.length - 7))

/-- `initialState` of the source: generate a deck, pop the starter onto the
discard, deal four hands of seven from the end of the deck, seat 0 first,
direction `+1`, active color the starter's color with `'red'` as the `??`
fallback for a wild starter.  `none` is returned only if the generated deck is
empty, which a permuting shuffle never produces. -/
def initialState (shuffle : List Card → List Card) : Option GameState :=
  let newDeck := generateDeck shuffle
  match newDeck.getLast? with
  | none => none
  | some starter =>
    let d0 := newDeck.dropLast
    let p0 := spliceLast7 d0
    let p1 := spliceLast7 p0.2
    let p2 := spliceLast7 p1.2
    let p3 := spliceLast7 p2.2
    some { deck := p3.2,
           discard := [starter],
           hands := [p0.1, p1.1, p2.1, p3.1],
           currentColor := some (starter.color.getD UColor.red),
           currentPlayerIdx := 0,
           direction := 1,
           gameOver := false,
           winner := none,
           selectedColor := none,
           selectedCards := [],
           skipNextPlayer := false }

/-- `resetGame` of the source repeats the construction of `initialState`
verbatim and installs it regardless of the previous state. -/
def resetGame (shuffle : List Card → List Card) (_prev : GameState) : Option GameState :=
  initialState shuffle

/-- Total number of card slots across the three places a card can live:
draw pile, discard pile, and the four hands. -/
def totalCards (s : GameState) : Nat :=
  s.deck.length + s.discard.length + (s.hands.map List.length).sum

/-- The gameplay-relevant projection of a state: everything except the UI
selection fields (`selectedColor`, `selectedCards`) and the inert
`skipNextPlayer` flag is kept. -/
def gameplayOf (s : GameState) :
    List Card × List Card × List (List Card) × Option UColor × Nat × Int × Bool × Option Nat :=
  (s.deck, s.discard, s.hands, s.currentColor, s.currentPlayerIdx, s.direction,
   s.gameOver, s.winner)

/-- The invalid-request conditions of claim C8 for `handlePlayerPlay`: wrong
seat or terminal session, empty selection, selection resolving to no cards,
several selected cards of mixed ranks, unplayable leading card, or a wild
leading card with no chosen color. -/
def invalidPlayRequest (s : GameState) : Prop :=
  s.currentPlayerIdx ≠ 0 ∨ s.gameOver = true ∨ s.selectedCards = [] ∨
  resolveSelection s = [] ∨
  (∃ first, (resolveSelection s).head? = some first ∧ 1 < (resolveSelection s).length ∧
    ((resolveSelection s).all fun c => decide (c.value = first.value)) = false) ∨
  (∃ first, (resolveSelection s).head? = some first ∧
    (canCardBePlayed (some first) s.discard.getLast? s.currentColor = false ∨
     (first.type = CardType.wild ∧ s.selectedColor = none)))

/-- A concrete mid-game state: it is seat 0's turn, the top discard is a red 5,
the active color is red, and the human has selected the red Draw2 at hand
index 0 (keeping a blue 7, so the play does not win).  The deck holds two
cards. -/
def playDraw2State : GameState :=
  { deck := [⟨20, CardType.number, some UColor.blue, CardValue.num 1⟩,
             ⟨21, CardType.number, some UColor.green, CardValue.num 2⟩],
    discard := [⟨22, CardType.number, some UColor.red, CardValue.num 5⟩],
    hands := [[⟨23, CardType.action, some UColor.red, CardValue.draw2⟩,
               ⟨24, CardType.number, some UColor.blue, CardValue.num 7⟩],
              [⟨25, CardType.number, some UColor.green, CardValue.num 3⟩],
              [⟨26, CardType.number, some UColor.yellow, CardValue.num 4⟩],
              [⟨27, CardType.number, some UColor.green, CardValue.num 9⟩]],
    currentColor := some UColor.red, currentPlayerIdx := 0, direction := 1,
    gameOver := false, winner := none, selectedColor := none,
    selectedCards := [0], skipNextPlayer := false }

/-- A concrete mid-game state in which the human has selected a red Skip at
hand index 0 (keeping a blue 7); seat 3's hand holds only an unplayable green
9, and the deck holds one card. -/
def playSkipState : GameState :=
  { deck := [⟨32, CardType.number, some UColor.blue, CardValue.num 1⟩],
    discard := [⟨22, CardType.number, some UColor.red, CardValue.num 5⟩],
    hands := [[⟨30, CardType.action, some UColor.red, CardValue.skip⟩,
               ⟨31, CardType.number, some UColor.blue, CardValue.num 7⟩],
              [⟨25, CardType.number, some UColor.green, CardValue.num 3⟩],
              [⟨26, CardType.number, some UColor.yellow, CardValue.num 4⟩],
              [⟨33, CardType.number, some UColor.green, CardValue.num 9⟩]],
    currentColor := some UColor.red, currentPlayerIdx := 0, direction := 1,
    gameOver := false, winner := none, selectedColor := none,
    selectedCards := [0], skipNextPlayer := false }

/-- A concrete state in which seat 1 is to act holding exactly one card, a red
Draw2 that is playable on the red-5 top with red active: playing it wins. -/
def oppWinDraw2State : GameState :=
  { deck := [⟨40, CardType.number, some UColor.blue, CardValue.num 1⟩,
             ⟨41, CardType.number, some UColor.green, CardValue.num 2⟩],
    discard := [⟨42, CardType.number, some UColor.red, CardValue.num 5⟩],
    hands := [[⟨43, CardType.number, some UColor.blue, CardValue.num 7⟩],
              [⟨44, CardType.action, some UColor.red, CardValue.draw2⟩],
              [⟨45, CardType.number, some UColor.yellow, CardValue.num 4⟩],
              [⟨46, CardType.number, some UColor.green, CardValue.num 9⟩]],
    currentColor := some UColor.red, currentPlayerIdx := 1, direction := 1,
    gameOver := false, winner := none, selectedColor := none,
    selectedCards := [], skipNextPlayer := false }

/-- A concrete state in which seat 1 is to act holding a playable red Draw2
and an unplayable blue 7: the Draw2 play does not win. -/
def oppDraw2State : GameState :=
  { deck := [⟨70, CardType.number, some UColor.blue, CardValue.num 1⟩,
             ⟨71, CardType.number, some UColor.green, CardValue.num 2⟩],
    discard := [⟨72, CardType.number, some UColor.red, CardValue.num 5⟩],
    hands := [[⟨73, CardType.number, some UColor.blue, CardValue.num 8⟩],
              [⟨74, CardType.action, some UColor.red, CardValue.draw2⟩,
               ⟨75, CardType.number, some UColor.blue, CardValue.num 7⟩],
              [⟨76, CardType.number, some UColor.yellow, CardValue.num 4⟩],
              [⟨77, CardType.number, some UColor.green, CardValue.num 9⟩]],
    currentColor := some UColor.red, currentPlayerIdx := 1, direction := 1,
    gameOver := false, winner := none, selectedColor := none,
    selectedCards := [], skipNextPlayer := false }

/-- A concrete state in which the human holds exactly one card, a red 5
playable on the red-3 top: playing it wins. -/
def humanWinState : GameState :=
  { deck := [⟨50, CardType.number, some UColor.blue, CardValue.num 1⟩],
    discard := [⟨51, CardType.number, some UColor.red, CardValue.num 3⟩],
    hands := [[⟨52, CardType.number, some UColor.red, CardValue.num 5⟩],
              [⟨53, CardType.number, some UColor.green, CardValue.num 3⟩],
              [⟨54, CardType.number, some UColor.yellow, CardValue.num 4⟩],
              [⟨55, CardType.number, some UColor.green, CardValue.num 9⟩]],
    currentColor := some UColor.red, currentPlayerIdx := 0, direction := 1,
    gameOver := false, winner := none, selectedColor := none,
    selectedCards := [0], skipNextPlayer := false }

/-- A terminal state used to exercise the rejection guards. -/
def overState : GameState :=
  { deck := [⟨60, CardType.number, some UColor.blue, CardValue.num 1⟩],
    discard := [⟨61, CardType.number, some UColor.red, CardValue.num 3⟩],
    hands := [[⟨62, CardType.number, some UColor.red, CardValue.num 5⟩], [], [], []],
    currentColor := some UColor.red, currentPlayerIdx := 0, direction := 1,
    gameOver := true, winner := some 2, selectedColor := none,
    selectedCards := [0], skipNextPlayer := false }

/-! ## Theorems -/

/-- C9: `nextSeat` is its own inverse under direction flip on the seat domain
`{0,1,2,3}` with direction `+1` or `-1`, and it advances along the fixed
clockwise ring `0 → 3 → 1 → 2 → 0`. -/
theorem getNextPlayerIdx_involution (s : Nat) (d : Int)
    (hs : s < 4) (hd : d = 1 ∨ d = -1) :
    getNextPlayerIdx (getNextPlayerIdx s d) (-d) = s ∧
    (getNextPlayerIdx 0 1 = 3 ∧ getNextPlayerIdx 3 1 = 1 ∧
     getNextPlayerIdx 1 1 = 2 ∧ getNextPlayerIdx 2 1 = 0) := by
  refine ⟨?_, by decide⟩
  rcases hd with h | h <;> subst h <;> interval_cases s <;> decide

/-- Witness for C9 at seat 2 and direction `-1`. -/
theorem getNextPlayerIdx_involution_witness :
    getNextPlayerIdx (getNextPlayerIdx 2 (-1)) (-(-1)) = 2 ∧
    (getNextPlayerIdx 0 1 = 3 ∧ getNextPlayerIdx 3 1 = 1 ∧
     getNextPlayerIdx 1 1 = 2 ∧ getNextPlayerIdx 2 1 = 0) :=
  getNextPlayerIdx_involution 2 (-1) (by decide) (Or.inr rfl)

/-- C7: single-card playability is exactly "wild, or color matches the active
color, or rank matches the top card's rank"; in particular the rank branch
ignores the active color (a blue 5 is playable on a red 5 with green active). -/
theorem canCardBePlayed_iff :
    (∀ (c t : Card) (a : Option UColor),
      canCardBePlayed (some c) (some t) a = true ↔
        (c.type = CardType.wild ∨ c.color = a ∨ c.value = t.value)) ∧
    canCardBePlayed (some ⟨0, CardType.number, some UColor.blue, CardValue.num 5⟩)
      (some ⟨1, CardType.number, some UColor.red, CardValue.num 5⟩)
      (some UColor.green) = true := by
  refine ⟨?_, by decide⟩
  intro c t a
  show (if c.type = CardType.wild then true
        else if c.color = a then true
        else if c.value = t.value then true else false) = true ↔ _
  split_ifs with h1 h2 h3 <;> simp_all

/-- C5: any deck built by `generateDeck` has exactly 108 cards and the exact
UNO multiset — per color one number 0, two each of numbers 1-9 and of
Skip/Reverse/Draw2, plus four Wild and four Wild+4 with no color — whatever
the shuffle outcome (assumed only to permute its input). -/
theorem generateDeck_composition (shuffle : List Card → List Card)
    (hsh : ∀ l, (shuffle l).Perm l) :
    (generateDeck shuffle).length = 108 ∧
    (∀ c : UColor,
      ((generateDeck shuffle).countP fun x =>
        decide (x.type = CardType.number ∧ x.color = some c ∧ x.value = CardValue.num 0)) = 1 ∧
      (∀ n, 1 ≤ n → n ≤ 9 →
        ((generateDeck shuffle).countP fun x =>
          decide (x.type = CardType.number ∧ x.color = some c ∧ x.value = CardValue.num n)) = 2) ∧
      ((generateDeck shuffle).countP fun x =>
        decide (x.type = CardType.action ∧ x.color = some c ∧ x.value = CardValue.skip)) = 2 ∧
      ((generateDeck shuffle).countP fun x =>
        decide (x.type = CardType.action ∧ x.color = some c ∧ x.value = CardValue.reverse)) = 2 ∧
      ((generateDeck shuffle).countP fun x =>
        decide (x.type = CardType.action ∧ x.color = some c ∧ x.value = CardValue.draw2)) = 2) ∧
    ((generateDeck shuffle).countP fun x =>
      decide (x.type = CardType.wild ∧ x.color = none ∧ x.value = CardValue.wild)) = 4 ∧
    ((generateDeck shuffle).countP fun x =>
      decide (x.type = CardType.wild ∧ x.color = none ∧ x.value = CardValue.wildPlus4)) = 4 := by
  have hperm : (generateDeck shuffle).Perm baseDeck := hsh baseDeck
  have hlen := hperm.length_eq
  have hcount := fun p => hperm.countP_eq p
  refine ⟨by rw [hlen]; decide, ?_, by rw [hcount]; decide, by rw [hcount]; decide⟩
  intro c
  refine ⟨by rw [hcount]; revert c; decide, ?_, by rw [hcount]; revert c; decide,
          by rw [hcount]; revert c; decide, by rw [hcount]; revert c; decide⟩
  intro n h1 h9
  rw [hcount]
  revert c
  interval_cases n <;> decide

/-- Witness for C5 with the identity shuffle. -/
theorem generateDeck_composition_witness :
    (generateDeck id).length = 108 ∧
    (∀ c : UColor,
      ((generateDeck id).countP fun x =>
        decide (x.type = CardType.number ∧ x.color = some c ∧ x.value = CardValue.num 0)) = 1 ∧
      (∀ n, 1 ≤ n → n ≤ 9 →
        ((generateDeck id).countP fun x =>
          decide (x.type = CardType.number ∧ x.color = some c ∧ x.value = CardValue.num n)) = 2) ∧
      ((generateDeck id).countP fun x =>
        decide (x.type = CardType.action ∧ x.color = some c ∧ x.value = CardValue.skip)) = 2 ∧
      ((generateDeck id).countP fun x =>
        decide (x.type = CardType.action ∧ x.color = some c ∧ x.value = CardValue.reverse)) = 2 ∧
      ((generateDeck id).countP fun x =>
        decide (x.type = CardType.action ∧ x.color = some c ∧ x.value = CardValue.draw2)) = 2) ∧
    ((generateDeck id).countP fun x =>
      decide (x.type = CardType.wild ∧ x.color = none ∧ x.value = CardValue.wild)) = 4 ∧
    ((generateDeck id).countP fun x =>
      decide (x.type = CardType.wild ∧ x.color = none ∧ x.value = CardValue.wildPlus4)) = 4 :=
  generateDeck_composition id fun l => List.Perm.refl l

/-- Every card drawn by the loop comes from the deck it started with or from
the discard minus its top card (the only recycling source). -/
theorem drawLoop_drawn_mem (shuffle : List Card → List Card)
    (hsh : ∀ l x, x ∈ shuffle l → x ∈ l) :
    ∀ (n : Nat) (deck discard : List Card) (c : Card),
      c ∈ (drawLoop shuffle n deck discard).1 → c ∈ deck ∨ c ∈ discard.dropLast := by
  intro n
  induction n with
  | zero => intro deck discard c hc; simp [drawLoop] at hc
  | succ n ih =>
    intro deck discard c hc
    cases deck with
    | nil =>
      rw [drawLoop] at hc
      by_cases hd : discard.length > 1
      · rw [if_pos hd] at hc
        cases hsd : shuffle discard.dropLast with
        | nil =>
          rw [hsd] at hc
          rcases ih [] discard c hc with h | h
          · exact absurd h (List.not_mem_nil c)
          · exact Or.inr h
        | cons b u =>
          rw [hsd] at hc
          simp only [List.mem_cons] at hc
          rcases hc with rfl | hc
          · exact Or.inr (hsh _ _ (by rw [hsd]; exact List.getLast_mem _))
          · rcases ih ((b :: u).dropLast) discard c hc with h | h
            · exact Or.inr (hsh _ _ (by rw [hsd]; exact (List.dropLast_sublist (b :: u)).subset h))
            · exact Or.inr h
      · rw [if_neg hd] at hc
        simp at hc
    | cons a t =>
      rw [drawLoop] at hc
      simp only [List.mem_cons] at hc
      rcases hc with rfl | hc
      · exact Or.inl (List.getLast_mem _)
      · rcases ih ((a :: t).dropLast) discard c hc with h | h
        · exact Or.inl ((List.dropLast_sublist (a :: t)).subset h)
        · exact Or.inr h

/-- Every card of the deck the loop returns likewise comes from the starting
deck or from the discard minus its top. -/
theorem drawLoop_deck_mem (shuffle : List Card → List Card)
    (hsh : ∀ l x, x ∈ shuffle l → x ∈ l) :
    ∀ (n : Nat) (deck discard : List Card) (c : Card),
      c ∈ (drawLoop shuffle n deck discard).2 → c ∈ deck ∨ c ∈ discard.dropLast := by
  intro n
  induction n with
  | zero => intro deck discard c hc; simp only [drawLoop] at hc; exact Or.inl hc
  | succ n ih =>
    intro deck discard c hc
    cases deck with
    | nil =>
      rw [drawLoop] at hc
      by_cases hd : discard.length > 1
      · rw [if_pos hd] at hc
        cases hsd : shuffle discard.dropLast with
        | nil =>
          rw [hsd] at hc
          rcases ih [] discard c hc with h | h
          · exact absurd h (List.not_mem_nil c)
          · exact Or.inr h
        | cons b u =>
          rw [hsd] at hc
          rcases ih ((b :: u).dropLast) discard c hc with h | h
          · exact Or.inr (hsh _ _ (by rw [hsd]; exact (List.dropLast_sublist (b :: u)).subset h))
          · exact Or.inr h
      · rw [if_neg hd] at hc
        simp at hc
    | cons a t =>
      rw [drawLoop] at hc
      rcases ih ((a :: t).dropLast) discard c hc with h | h
      · exact Or.inl ((List.dropLast_sublist (a :: t)).subset h)
      · exact Or.inr h

/-- When the discard has at most one card, no recycling can happen, so a draw
request larger than the deck drains the deck exactly and stops early. -/
theorem drawLoop_length_of_small (shuffle : List Card → List Card) :
    ∀ (n : Nat) (deck discard : List Card), discard.length ≤ 1 → deck.length < n →
      (drawLoop shuffle n deck discard).1.length = deck.length := by
  intro n
  induction n with
  | zero => intro deck discard _ h2; exact absurd h2 (Nat.not_lt_zero _)
  | succ n ih =>
    intro deck discard h1 h2
    cases deck with
    | nil =>
      rw [drawLoop, if_neg (by omega)]
    | cons a t =>
      rw [drawLoop]
      have hlt : ((a :: t).dropLast).length < n := by
        rw [List.length_dropLast]
        simp only [List.length_cons] at h2 ⊢
        omega
      simp only [List.length_cons, ih ((a :: t).dropLast) discard h1 hlt,
        List.length_dropLast, List.length_cons]
      omega

/-- C6: the draw/recycle routine (a) only ever hands out cards that were in the
draw pile or in the discard minus its top — in particular the discard's top
card is never among the drawn cards when it sits nowhere else; (b) when the
deck runs out with at most one discard card, it stops early and returns
exactly the remaining deck (fewer than `count` cards); (c) the returned deck is
also built only from those sources.  The routine is a pure function of
`(count, deck, discard)` returning `(drawn, newDeck)`; the discard argument is
only read, never rebuilt, so it cannot be mutated. -/
theorem drawCardsFromDeck_spec (shuffle : List Card → List Card)
    (hsh : ∀ l, (shuffle l).Perm l) (count : Nat) (deck discard : List Card) :
    (∀ c ∈ (drawCardsFromDeck shuffle count deck discard).1,
        c ∈ deck ∨ c ∈ discard.dropLast) ∧
    (discard.length ≤ 1 → deck.length < count →
        (drawCardsFromDeck shuffle count deck discard).1.length = deck.length) ∧
    (∀ t, discard.getLast? = some t → t ∉ deck → t ∉ discard.dropLast →
        t ∉ (drawCardsFromDeck shuffle count deck discard).1) ∧
    (∀ c ∈ (drawCardsFromDeck shuffle count deck discard).2,
        c ∈ deck ∨ c ∈ discard.dropLast) := by
  have hmem : ∀ l x, x ∈ shuffle l → x ∈ l := fun l x hx => (hsh l).mem_iff.mp hx
  refine ⟨fun c hc => drawLoop_drawn_mem shuffle hmem count deck discard c hc,
          fun h1 h2 => drawLoop_length_of_small shuffle count deck discard h1 h2,
          fun t _ hnd hndl ht => ?_,
          fun c hc => drawLoop_deck_mem shuffle hmem count deck discard c hc⟩
  rcases drawLoop_drawn_mem shuffle hmem count deck discard t ht with h | h
  · exact hnd h
  · exact hndl h

/-- Witness for C6: identity shuffle, empty deck, a three-card discard, draw
request of three. -/
theorem drawCardsFromDeck_spec_witness :
    (∀ c ∈ (drawCardsFromDeck id 3 []
        [⟨2, CardType.number, some UColor.red, CardValue.num 3⟩,
         ⟨3, CardType.number, some UColor.blue, CardValue.num 4⟩,
         ⟨4, CardType.number, some UColor.green, CardValue.num 5⟩]).1,
        c ∈ ([] : List Card) ∨
        c ∈ ([⟨2, CardType.number, some UColor.red, CardValue.num 3⟩,
              ⟨3, CardType.number, some UColor.blue, CardValue.num 4⟩,
              ⟨4, CardType.number, some UColor.green, CardValue.num 5⟩] : List Card).dropLast) ∧
    (([⟨2, CardType.number, some UColor.red, CardValue.num 3⟩,
       ⟨3, CardType.number, some UColor.blue, CardValue.num 4⟩,
       ⟨4, CardType.number, some UColor.green, CardValue.num 5⟩] : List Card).length ≤ 1 →
      ([] : List Card).length < 3 →
      (drawCardsFromDeck id 3 []
        [⟨2, CardType.number, some UColor.red, CardValue.num 3⟩,
         ⟨3, CardType.number, some UColor.blue, CardValue.num 4⟩,
         ⟨4, CardType.number, some UColor.green, CardValue.num 5⟩]).1.length = 0) ∧
    (∀ t, ([⟨2, CardType.number, some UColor.red, CardValue.num 3⟩,
            ⟨3, CardType.number, some UColor.blue, CardValue.num 4⟩,
            ⟨4, CardType.number, some UColor.green, CardValue.num 5⟩] : List Card).getLast? = some t →
        t ∉ ([] : List Card) →
        t ∉ ([⟨2, CardType.number, some UColor.red, CardValue.num 3⟩,
              ⟨3, CardType.number, some UColor.blue, CardValue.num 4⟩,
              ⟨4, CardType.number, some UColor.green, CardValue.num 5⟩] : List Card).dropLast →
        t ∉ (drawCardsFromDeck id 3 []
          [⟨2, CardType.number, some UColor.red, CardValue.num 3⟩,
           ⟨3, CardType.number, some UColor.blue, CardValue.num 4⟩,
           ⟨4, CardType.number, some UColor.green, CardValue.num 5⟩]).1) ∧
    (∀ c ∈ (drawCardsFromDeck id 3 []
        [⟨2, CardType.number, some UColor.red, CardValue.num 3⟩,
         ⟨3, CardType.number, some UColor.blue, CardValue.num 4⟩,
         ⟨4, CardType.number, some UColor.green, CardValue.num 5⟩]).2,
        c ∈ ([] : List Card) ∨
        c ∈ ([⟨2, CardType.number, some UColor.red, CardValue.num 3⟩,
              ⟨3, CardType.number, some UColor.blue, CardValue.num 4⟩,
              ⟨4, CardType.number, some UColor.green, CardValue.num 5⟩] : List Card).dropLast) :=
  drawCardsFromDeck_spec id (fun l => List.Perm.refl l) 3 []
    [⟨2, CardType.number, some UColor.red, CardValue.num 3⟩,
     ⟨3, CardType.number, some UColor.blue, CardValue.num 4⟩,
     ⟨4, CardType.number, some UColor.green, CardValue.num 5⟩]

/-- C1 is violated by the code: an accepted human Draw2 play on a non-terminal
session *creates* cards.  The two penalty cards handed to seat 3 are drawn via
`drawCardsFromDeck`, but the commit keeps the previous deck (`deck: prev.deck`
in the source), so the very same card (id 21) ends up both in the draw pile and
in seat 3's hand, and the total card count grows from 8 to 10. -/
theorem card_conservation_violated :
    totalCards playDraw2State = 8 ∧
    totalCards (handlePlayerPlay id playDraw2State) = 10 ∧
    (⟨21, CardType.number, some UColor.green, CardValue.num 2⟩ : Card) ∈
      (handlePlayerPlay id playDraw2State).deck ∧
    (⟨21, CardType.number, some UColor.green, CardValue.num 2⟩ : Card) ∈
      (handlePlayerPlay id playDraw2State).hands.getD 3 [] := by
  decide

/-- C4 is violated by the code for human plays: after the human plays a Skip,
the provisional next seat 3 itself becomes the current seat (the
`skipNextPlayer` flag is set but no code ever reads it), and the following
opponent activation is seat 3 acting — here drawing a card into its own hand —
after which the turn passes to seat 1.  The claim instead requires seat 3 to be
passed over with no action. -/
theorem human_skip_not_applied :
    (handlePlayerPlay id playSkipState).currentPlayerIdx = 3 ∧
    (handlePlayerPlay id playSkipState).skipNextPlayer = true ∧
    getNextPlayerIdx 3 1 = 1 ∧
    ((opponentTurn id UColor.red (handlePlayerPlay id playSkipState)).hands.getD 3 []).length
      = (playSkipState.hands.getD 3 []).length + 1 ∧
    (opponentTurn id UColor.red (handlePlayerPlay id playSkipState)).currentPlayerIdx = 1 := by
  decide

/-- Counterexample to C2: when opponent seat 1 plays its last card, a red
Draw2, the session does become terminal with winner 1, but the Draw2 effect is
*not* suppressed — seat 2's hand grows from 1 to 3 cards, because the source
applies the special-effect block before the win check on opponent turns. -/
theorem opp_win_penalty_still_applied :
    (opponentTurn id UColor.red oppWinDraw2State).gameOver = true ∧
    (opponentTurn id UColor.red oppWinDraw2State).winner = some 1 ∧
    (oppWinDraw2State.hands.getD 2 []).length = 1 ∧
    ((opponentTurn id UColor.red oppWinDraw2State).hands.getD 2 []).length = 3 := by
  decide

/-- Counterexample to C3: after the human's accepted, non-winning Draw2 play,
the drawing seat 3 receives its two penalty cards but is *not* passed over —
it becomes the current seat itself, instead of turn control passing to
`nextSeat(3, +1) = 1` as the claim requires. -/
theorem draw2_does_not_pass_drawing_seat :
    ((handlePlayerPlay id playDraw2State).hands.getD 3 []).length
      = (playDraw2State.hands.getD 3 []).length + 2 ∧
    (handlePlayerPlay id playDraw2State).currentPlayerIdx = 3 ∧
    getNextPlayerIdx 3 1 = 1 ∧
    (handlePlayerPlay id playDraw2State).gameOver = false := by
  decide

/-- Characterization of an *accepted* human play: once all guards pass, the
result is the win commit when the remaining hand is empty, and otherwise the
commit of the special-effect block.  This mirrors lines 259-316 of the
source. -/
theorem handlePlayerPlay_accepted (shuffle : List Card → List Card) (s : GameState)
    (h0 : s.currentPlayerIdx = 0) (hg : s.gameOver = false)
    (first : Card) (rest : List Card) (hres : resolveSelection s = first :: rest)
    (hsame : ((first :: rest).all fun c => decide (c.value = first.value)) = true)
    (hplay : canCardBePlayed (some first) s.discard.getLast? s.currentColor = true)
    (hwild : ¬ (first.type = CardType.wild ∧ s.selectedColor = none)) :
    handlePlayerPlay shuffle s =
      if (handSansSelected (s.hands.getD 0 []) s.selectedCards).length = 0 then
        { s with gameOver := true, winner := some 0,
                 hands := s.hands.set 0 (handSansSelected (s.hands.getD 0 []) s.selectedCards),
                 discard := s.discard ++ (first :: rest),
                 currentColor :=
                   if ((first :: rest).getLast?.getD first).type = CardType.wild
                   then s.selectedColor else ((first :: rest).getLast?.getD first).color }
      else
        let e := applyCardEffects shuffle 0 s.direction s.deck (first :: rest)
                   ((first :: rest).getLast?.getD first)
                   (s.discard ++ (first :: rest))
                   (s.hands.set 0 (handSansSelected (s.hands.getD 0 []) s.selectedCards))
        { s with hands := e.newHands,
                 discard := s.discard ++ (first :: rest),
                 currentColor :=
                   if ((first :: rest).getLast?.getD first).type = CardType.wild
                   then s.selectedColor else ((first :: rest).getLast?.getD first).color,
                 currentPlayerIdx := e.nextPlayerIdx, direction := e.newDirection,
                 skipNextPlayer := e.skipNext, selectedColor := none,
                 selectedCards := [] } := by
  have hsel : ¬ s.selectedCards.length = 0 := by
    intro h
    rw [List.length_eq_zero] at h
    have hnil : resolveSelection s = [] := by simp [resolveSelection, h]
    rw [hres] at hnil
    exact List.cons_ne_nil _ _ hnil
  unfold handlePlayerPlay
  rw [if_neg (by simp [h0, hg]), if_neg hsel, hres]
  simp only [hsame, Bool.not_true, Bool.and_false, Bool.false_eq_true, if_false, hplay,
    Bool.not_true, Bool.false_eq_true, if_false, if_neg hwild]

/-- Characterization of an opponent activation that has at least one playable
card: the result is the win commit (after the special-effect block!) when the
played-out hand is empty, and otherwise the skip-adjusted commit.  This mirrors
lines 358-430 of the source. -/
theorem opponentTurn_play (shuffle : List Card → List Card) (chosenColor : UColor)
    (s : GameState) (hc : ¬ s.currentPlayerIdx = 0) (hg : s.gameOver = false)
    (firstCard : Card) (vrest : List Card) (hv : oppValidCards s = firstCard :: vrest) :
    opponentTurn shuffle chosenColor s =
      (let lastCard := (oppCardsToPlay s).getLast?.getD firstCard
       let newColor := if lastCard.type = CardType.wild then some chosenColor else lastCard.color
       let e := applyCardEffects shuffle s.currentPlayerIdx s.direction s.deck
                  (oppCardsToPlay s) lastCard (oppNewDiscard s) (oppNewHands1 s)
       if (e.newHands.getD s.currentPlayerIdx []).length = 0 then
         { s with gameOver := true, winner := some s.currentPlayerIdx,
                  hands := e.newHands, discard := oppNewDiscard s, currentColor := newColor }
       else if e.skipNext then
         { s with hands := e.newHands, discard := oppNewDiscard s, currentColor := newColor,
                  direction := e.newDirection,
                  currentPlayerIdx := getNextPlayerIdx e.nextPlayerIdx e.newDirection,
                  skipNextPlayer := false }
       else
         { s with hands := e.newHands, discard := oppNewDiscard s, currentColor := newColor,
                  direction := e.newDirection, currentPlayerIdx := e.nextPlayerIdx,
                  skipNextPlayer := e.skipNext }) := by
  unfold opponentTurn
  rw [if_neg (by simp [hc, hg]), hv]

/-- Setting one hand leaves every other hand unchanged. -/
theorem getD_set_ne {α : Type} (l : List α) (i j : Nat) (a : α) (d : α) (h : i ≠ j) :
    (l.set i a).getD j d = l.getD j d := by
  simp [List.getD_eq_getElem?_getD, List.getElem?_set_ne h]

/-- Unfolding of the effect block for a `Draw2` last card: the provisional next
seat's hand is extended with the penalty cards, nothing is skipped, direction
is kept. -/
theorem applyCardEffects_draw2 (shuffle : List Card → List Card) (seatIdx : Nat)
    (dir : Int) (deck cardsToPlay : List Card) (lastCard : Card) (newDiscard : List Card)
    (hands : List (List Card)) (h : lastCard.value = CardValue.draw2) :
    applyCardEffects shuffle seatIdx dir deck cardsToPlay lastCard newDiscard hands =
      ⟨getNextPlayerIdx seatIdx dir, false, dir,
       hands.set (getNextPlayerIdx seatIdx dir)
         ((hands.getD (getNextPlayerIdx seatIdx dir) []) ++
          (drawCardsFromDeck shuffle
            ((cardsToPlay.filter fun c => decide (c.value = CardValue.draw2)).length * 2)
            deck newDiscard).1)⟩ := by
  simp [applyCardEffects, h]

/-- Unfolding of the effect block for a `Wild+4` last card. -/
theorem applyCardEffects_wildPlus4 (shuffle : List Card → List Card) (seatIdx : Nat)
    (dir : Int) (deck cardsToPlay : List Card) (lastCard : Card) (newDiscard : List Card)
    (hands : List (List Card)) (h : lastCard.value = CardValue.wildPlus4) :
    applyCardEffects shuffle seatIdx dir deck cardsToPlay lastCard newDiscard hands =
      ⟨getNextPlayerIdx seatIdx dir, false, dir,
       hands.set (getNextPlayerIdx seatIdx dir)
         ((hands.getD (getNextPlayerIdx seatIdx dir) []) ++
          (drawCardsFromDeck shuffle
            ((cardsToPlay.filter fun c => decide (c.value = CardValue.wildPlus4)).length * 4)
            deck newDiscard).1)⟩ := by
  simp [applyCardEffects, h]

/-- C2 amended: an accepted play that empties seat S's hand makes the session
terminal with winner S, leaving current seat, direction and deck unchanged.
For the human seat no effect of the played card is applied at all — every
other hand is untouched.  For an opponent seat, however, the committed hands
are the hands *after* the special-effect block, so a Draw2/Wild+4 penalty
drawn for the provisional next seat is still applied on the winning play
(no skip or direction change is committed). -/
theorem winning_play_resolution (shuffle : List Card → List Card) (chosenColor : UColor)
    (s : GameState) :
    (∀ first rest, s.currentPlayerIdx = 0 → s.gameOver = false →
      resolveSelection s = first :: rest →
      ((first :: rest).all fun c => decide (c.value = first.value)) = true →
      canCardBePlayed (some first) s.discard.getLast? s.currentColor = true →
      ¬ (first.type = CardType.wild ∧ s.selectedColor = none) →
      (handSansSelected (s.hands.getD 0 []) s.selectedCards).length = 0 →
      (handlePlayerPlay shuffle s).gameOver = true ∧
      (handlePlayerPlay shuffle s).winner = some 0 ∧
      (handlePlayerPlay shuffle s).currentPlayerIdx = s.currentPlayerIdx ∧
      (handlePlayerPlay shuffle s).direction = s.direction ∧
      (handlePlayerPlay shuffle s).deck = s.deck ∧
      (handlePlayerPlay shuffle s).skipNextPlayer = s.skipNextPlayer ∧
      (∀ j, j ≠ 0 → (handlePlayerPlay shuffle s).hands.getD j [] = s.hands.getD j [])) ∧
    (∀ firstCard vrest, ¬ s.currentPlayerIdx = 0 → s.gameOver = false →
      oppValidCards s = firstCard :: vrest →
      ((applyCardEffects shuffle s.currentPlayerIdx s.direction s.deck (oppCardsToPlay s)
          ((oppCardsToPlay s).getLast?.getD firstCard) (oppNewDiscard s)
          (oppNewHands1 s)).newHands.getD s.currentPlayerIdx []).length = 0 →
      (opponentTurn shuffle chosenColor s).gameOver = true ∧
      (opponentTurn shuffle chosenColor s).winner = some s.currentPlayerIdx ∧
      (opponentTurn shuffle chosenColor s).currentPlayerIdx = s.currentPlayerIdx ∧
      (opponentTurn shuffle chosenColor s).direction = s.direction ∧
      (opponentTurn shuffle chosenColor s).deck = s.deck ∧
      (opponentTurn shuffle chosenColor s).hands =
        (applyCardEffects shuffle s.currentPlayerIdx s.direction s.deck (oppCardsToPlay s)
          ((oppCardsToPlay s).getLast?.getD firstCard) (oppNewDiscard s)
          (oppNewHands1 s)).newHands) := by
  constructor
  · intro first rest h0 hg hres hsame hplay hwild hempty
    rw [handlePlayerPlay_accepted shuffle s h0 hg first rest hres hsame hplay hwild,
        if_pos hempty]
    refine ⟨rfl, rfl, rfl, rfl, rfl, rfl, fun j hj => ?_⟩
    exact getD_set_ne _ _ _ _ _ fun h => hj h.symm
  · intro firstCard vrest hc hg hv hwin
    rw [opponentTurn_play shuffle chosenColor s hc hg firstCard vrest hv]
    dsimp only
    rw [if_pos hwin]
    exact ⟨rfl, rfl, rfl, rfl, rfl, rfl⟩

/-- Witness for C2's amended claim: the human wins with a red 5 (no effects);
opponent seat 1 wins with a red Draw2 and seat 2 still draws the penalty. -/
theorem winning_play_resolution_witness :
    ((handlePlayerPlay id humanWinState).gameOver = true ∧
     (handlePlayerPlay id humanWinState).winner = some 0 ∧
     (handlePlayerPlay id humanWinState).currentPlayerIdx = humanWinState.currentPlayerIdx ∧
     (handlePlayerPlay id humanWinState).direction = humanWinState.direction ∧
     (handlePlayerPlay id humanWinState).deck = humanWinState.deck ∧
     (handlePlayerPlay id humanWinState).skipNextPlayer = humanWinState.skipNextPlayer ∧
     (∀ j, j ≠ 0 →
       (handlePlayerPlay id humanWinState).hands.getD j [] = humanWinState.hands.getD j [])) ∧
    ((opponentTurn id UColor.red oppWinDraw2State).gameOver = true ∧
     (opponentTurn id UColor.red oppWinDraw2State).winner = some 1 ∧
     (opponentTurn id UColor.red oppWinDraw2State).currentPlayerIdx = 1 ∧
     (opponentTurn id UColor.red oppWinDraw2State).direction = oppWinDraw2State.direction ∧
     (opponentTurn id UColor.red oppWinDraw2State).deck = oppWinDraw2State.deck ∧
     (opponentTurn id UColor.red oppWinDraw2State).hands =
       (applyCardEffects id 1 1 oppWinDraw2State.deck (oppCardsToPlay oppWinDraw2State)
         ((oppCardsToPlay oppWinDraw2State).getLast?.getD
           ⟨44, CardType.action, some UColor.red, CardValue.draw2⟩)
         (oppNewDiscard oppWinDraw2State)
         (oppNewHands1 oppWinDraw2State)).newHands) := by
  constructor
  · exact (winning_play_resolution id UColor.red humanWinState).1
      ⟨52, CardType.number, some UColor.red, CardValue.num 5⟩ [] rfl rfl (by decide)
      (by decide) (by decide) (by decide) (by decide)
  · exact (winning_play_resolution id UColor.red oppWinDraw2State).2
      ⟨44, CardType.action, some UColor.red, CardValue.draw2⟩ [] (by decide) rfl
      (by decide) (by decide)

/-- Setting an in-range hand makes that slot the new value. -/
theorem getD_set_self {α : Type} (l : List α) (i : Nat) (a : α) (d : α)
    (h : i < l.length) : (l.set i a).getD i d = a := by
  rw [List.getD_eq_getElem?_getD, List.getElem?_set_self h]
  rfl

/-- One ring step never stays on the same seat, and stays inside `{0,1,2,3}`. -/
theorem getNextPlayerIdx_ne_self (cur : Nat) (d : Int) (h4 : cur < 4)
    (hd : d = 1 ∨ d = -1) :
    getNextPlayerIdx cur d < 4 ∧ getNextPlayerIdx cur d ≠ cur := by
  rcases hd with h | h <;> subst h <;> interval_cases cur <;> decide

/-- C3 amended: for every accepted non-winning play (human or opponent) whose
last card is `Draw2` (resp. `Wild+4`), the provisional next seat receives
`2 × (number of Draw2 cards)` (resp. `4 × (number of Wild+4 cards)`) cards from
the draw/recycle routine directly into its hand — but that seat is *not*
passed over: it becomes the current seat itself and acts this exchange,
instead of turn control passing to the seat after it. -/
theorem draw_penalty_resolution (shuffle : List Card → List Card) (chosenColor : UColor)
    (s : GameState) :
    (∀ first rest, s.currentPlayerIdx = 0 → s.gameOver = false →
      resolveSelection s = first :: rest →
      ((first :: rest).all fun c => decide (c.value = first.value)) = true →
      canCardBePlayed (some first) s.discard.getLast? s.currentColor = true →
      ¬ (first.type = CardType.wild ∧ s.selectedColor = none) →
      ¬ (handSansSelected (s.hands.getD 0 []) s.selectedCards).length = 0 →
      s.hands.length = 4 → (s.direction = 1 ∨ s.direction = -1) →
      ((((first :: rest).getLast?.getD first).value = CardValue.draw2 →
        (handlePlayerPlay shuffle s).currentPlayerIdx = getNextPlayerIdx 0 s.direction ∧
        (handlePlayerPlay shuffle s).hands.getD (getNextPlayerIdx 0 s.direction) [] =
          s.hands.getD (getNextPlayerIdx 0 s.direction) [] ++
          (drawCardsFromDeck shuffle
            (((first :: rest).filter fun c => decide (c.value = CardValue.draw2)).length * 2)
            s.deck (s.discard ++ (first :: rest))).1) ∧
       (((first :: rest).getLast?.getD first).value = CardValue.wildPlus4 →
        (handlePlayerPlay shuffle s).currentPlayerIdx = getNextPlayerIdx 0 s.direction ∧
        (handlePlayerPlay shuffle s).hands.getD (getNextPlayerIdx 0 s.direction) [] =
          s.hands.getD (getNextPlayerIdx 0 s.direction) [] ++
          (drawCardsFromDeck shuffle
            (((first :: rest).filter fun c => decide (c.value = CardValue.wildPlus4)).length * 4)
            s.deck (s.discard ++ (first :: rest))).1))) ∧
    (∀ firstCard vrest, ¬ s.currentPlayerIdx = 0 → s.gameOver = false →
      oppValidCards s = firstCard :: vrest →
      ¬ ((applyCardEffects shuffle s.currentPlayerIdx s.direction s.deck (oppCardsToPlay s)
          ((oppCardsToPlay s).getLast?.getD firstCard) (oppNewDiscard s)
          (oppNewHands1 s)).newHands.getD s.currentPlayerIdx []).length = 0 →
      s.hands.length = 4 → s.currentPlayerIdx < 4 → (s.direction = 1 ∨ s.direction = -1) →
      ((((oppCardsToPlay s).getLast?.getD firstCard).value = CardValue.draw2 →
        (opponentTurn shuffle chosenColor s).currentPlayerIdx =
          getNextPlayerIdx s.currentPlayerIdx s.direction ∧
        (opponentTurn shuffle chosenColor s).hands.getD
            (getNextPlayerIdx s.currentPlayerIdx s.direction) [] =
          s.hands.getD (getNextPlayerIdx s.currentPlayerIdx s.direction) [] ++
          (drawCardsFromDeck shuffle
            (((oppCardsToPlay s).filter fun c => decide (c.value = CardValue.draw2)).length * 2)
            s.deck (oppNewDiscard s)).1) ∧
       (((oppCardsToPlay s).getLast?.getD firstCard).value = CardValue.wildPlus4 →
        (opponentTurn shuffle chosenColor s).currentPlayerIdx =
          getNextPlayerIdx s.currentPlayerIdx s.direction ∧
        (opponentTurn shuffle chosenColor s).hands.getD
            (getNextPlayerIdx s.currentPlayerIdx s.direction) [] =
          s.hands.getD (getNextPlayerIdx s.currentPlayerIdx s.direction) [] ++
          (drawCardsFromDeck shuffle
            (((oppCardsToPlay s).filter fun c => decide (c.value = CardValue.wildPlus4)).length * 4)
            s.deck (oppNewDiscard s)).1))) := by
  constructor
  · intro first rest h0 hg hres hsame hplay hwild hne hlen hdir
    have hnp := getNextPlayerIdx_ne_self 0 s.direction (by decide) hdir
    rw [handlePlayerPlay_accepted shuffle s h0 hg first rest hres hsame hplay hwild,
        if_neg hne]
    constructor
    · intro hlast
      rw [applyCardEffects_draw2 _ _ _ _ _ _ _ _ hlast]
      refine ⟨rfl, ?_⟩
      dsimp only
      rw [getD_set_self _ _ _ _ (by rw [List.length_set, hlen]; exact hnp.1),
          getD_set_ne _ _ _ _ _ fun h => hnp.2 h.symm]
    · intro hlast
      rw [applyCardEffects_wildPlus4 _ _ _ _ _ _ _ _ hlast]
      refine ⟨rfl, ?_⟩
      dsimp only
      rw [getD_set_self _ _ _ _ (by rw [List.length_set, hlen]; exact hnp.1),
          getD_set_ne _ _ _ _ _ fun h => hnp.2 h.symm]
  · intro firstCard vrest hc hg hv hnowin hlen hcur4 hdir
    have hnp := getNextPlayerIdx_ne_self s.currentPlayerIdx s.direction hcur4 hdir
    rw [opponentTurn_play shuffle chosenColor s hc hg firstCard vrest hv]
    dsimp only
    rw [if_neg hnowin]
    constructor
    · intro hlast
      rw [applyCardEffects_draw2 _ _ _ _ _ _ _ _ hlast]
      dsimp only
      rw [if_neg Bool.false_ne_true]
      refine ⟨rfl, ?_⟩
      dsimp only
      rw [getD_set_self _ _ _ _
            (by rw [oppNewHands1, List.length_set, hlen]; exact hnp.1),
          oppNewHands1, getD_set_ne _ _ _ _ _ fun h => hnp.2 h.symm]
    · intro hlast
      rw [applyCardEffects_wildPlus4 _ _ _ _ _ _ _ _ hlast]
      dsimp only
      rw [if_neg Bool.false_ne_true]
      refine ⟨rfl, ?_⟩
      dsimp only
      rw [getD_set_self _ _ _ _
            (by rw [oppNewHands1, List.length_set, hlen]; exact hnp.1),
          oppNewHands1, getD_set_ne _ _ _ _ _ fun h => hnp.2 h.symm]

/-- Witness for C3's amended claim: a human Draw2 play from `playDraw2State`
and an opponent Draw2 play from `oppDraw2State`, each handing the penalty to
the seat that then becomes current. -/
theorem draw_penalty_resolution_witness :
    ((handlePlayerPlay id playDraw2State).currentPlayerIdx =
        getNextPlayerIdx 0 playDraw2State.direction ∧
      (handlePlayerPlay id playDraw2State).hands.getD
          (getNextPlayerIdx 0 playDraw2State.direction) [] =
        playDraw2State.hands.getD (getNextPlayerIdx 0 playDraw2State.direction) [] ++
        (drawCardsFromDeck id
          ((([⟨23, CardType.action, some UColor.red, CardValue.draw2⟩] : List Card).filter
              fun c => decide (c.value = CardValue.draw2)).length * 2)
          playDraw2State.deck
          (playDraw2State.discard ++
            [⟨23, CardType.action, some UColor.red, CardValue.draw2⟩])).1) ∧
    ((opponentTurn id UColor.red oppDraw2State).currentPlayerIdx =
        getNextPlayerIdx oppDraw2State.currentPlayerIdx oppDraw2State.direction ∧
      (opponentTurn id UColor.red oppDraw2State).hands.getD
          (getNextPlayerIdx oppDraw2State.currentPlayerIdx oppDraw2State.direction) [] =
        oppDraw2State.hands.getD
          (getNextPlayerIdx oppDraw2State.currentPlayerIdx oppDraw2State.direction) [] ++
        (drawCardsFromDeck id
          (((oppCardsToPlay oppDraw2State).filter
              fun c => decide (c.value = CardValue.draw2)).length * 2)
          oppDraw2State.deck (oppNewDiscard oppDraw2State)).1) :=
  ⟨((draw_penalty_resolution id UColor.red playDraw2State).1
      ⟨23, CardType.action, some UColor.red, CardValue.draw2⟩ [] rfl rfl (by decide)
      (by decide) (by decide) (by decide) (by decide) rfl (Or.inl rfl)).1 (by decide),
   ((draw_penalty_resolution id UColor.red oppDraw2State).2
      ⟨74, CardType.action, some UColor.red, CardValue.draw2⟩ [] (by decide) rfl
      (by decide) (by decide) rfl (by decide) (Or.inl rfl)).1 (by decide)⟩

/-- C8: every invalid `playSelection` request — wrong seat, terminal session,
empty or unresolvable selection, mixed ranks, unplayable leading card, or an
unresolved wild color — leaves the gameplay state (deck, discard, hands,
active color, current seat, direction, terminal flag, winner) unchanged, with
at most the UI selection cleared; and `drawOne` is likewise a gameplay no-op
when it is not seat 0's turn or the session is terminal. -/
theorem noop_rejection (shuffle : List Card → List Card) (s : GameState) :
    (invalidPlayRequest s →
      gameplayOf (handlePlayerPlay shuffle s) = gameplayOf s) ∧
    ((s.currentPlayerIdx ≠ 0 ∨ s.gameOver = true) →
      gameplayOf (handlePlayerDraw shuffle s) = gameplayOf s) := by
  constructor
  · intro hinv
    by_cases hA : s.currentPlayerIdx ≠ 0 ∨ s.gameOver = true
    · unfold handlePlayerPlay
      rw [if_pos hA]
    · unfold handlePlayerPlay
      rw [if_neg hA]
      by_cases hB : s.selectedCards.length = 0
      · rw [if_pos hB]
      · rw [if_neg hB]
        cases hres : resolveSelection s with
        | nil => rfl
        | cons first rest =>
          dsimp only
          by_cases hC : (decide ((first :: rest).length > 1) &&
              ! ((first :: rest).all fun c => decide (c.value = first.value))) = true
          · rw [if_pos hC]
            rfl
          · rw [if_neg hC]
            by_cases hD :
                (! canCardBePlayed (some first) s.discard.getLast? s.currentColor) = true
            · rw [if_pos hD]
              rfl
            · rw [if_neg hD]
              by_cases hE : first.type = CardType.wild ∧ s.selectedColor = none
              · rw [if_pos hE]
              · exfalso
                push_neg at hA
                simp only [Bool.not_eq_true', Bool.not_eq_false] at hD
                rcases hinv with h | h | h | h | ⟨f, hf, hlen1, hall⟩ | ⟨f, hf, hcase⟩
                · exact h hA.1
                · exact hA.2 h
                · exact hB (by rw [h]; rfl)
                · rw [hres] at h; exact List.cons_ne_nil _ _ h
                · rw [hres] at hf hlen1 hall
                  simp only [List.head?_cons, Option.some.injEq] at hf
                  subst hf
                  refine hC ?_
                  rw [hall]
                  simp only [Bool.not_false, Bool.and_true, decide_eq_true_eq]
                  exact hlen1
                · rw [hres] at hf
                  simp only [List.head?_cons, Option.some.injEq] at hf
                  subst hf
                  rcases hcase with h | h
                  · rw [hD] at h
                    exact Bool.noConfusion h
                  · exact hE h
  · intro h
    unfold handlePlayerDraw
    rw [if_pos h]

/-- Witness for C8 on a terminal session: both operations leave the gameplay
projection unchanged. -/
theorem noop_rejection_witness :
    gameplayOf (handlePlayerPlay id overState) = gameplayOf overState ∧
    gameplayOf (handlePlayerDraw id overState) = gameplayOf overState :=
  ⟨(noop_rejection id overState).1 (Or.inr (Or.inl rfl)),
   (noop_rejection id overState).2 (Or.inr rfl)⟩

/-- In the constructed deck, a card is wild exactly when its color is `none`. -/
theorem baseDeck_wild_color :
    ∀ x ∈ baseDeck, x.type = CardType.wild ↔ x.color = none := by
  decide

/-- C10: every fresh session (creation or reset) sets the active color to the
starter discard card's color when it has one, and to red when the starter is
wild (whose color is `none` by the deck invariant); the active color is never
left unset and no color choice is pending. -/
theorem initial_wild_starter (shuffle : List Card → List Card)
    (hsh : ∀ l, (shuffle l).Perm l) :
    ∃ st starter, initialState shuffle = some st ∧ st.discard = [starter] ∧
      (∀ c, starter.color = some c → st.currentColor = some c) ∧
      (starter.type = CardType.wild → st.currentColor = some UColor.red) ∧
      st.currentColor ≠ none ∧ st.selectedColor = none ∧
      (∀ prev, resetGame shuffle prev = initialState shuffle) := by
  have hlen : (generateDeck shuffle).length = 108 := by
    show (shuffle baseDeck).length = 108
    rw [(hsh baseDeck).length_eq]
    decide
  have hne : generateDeck shuffle ≠ [] := by
    intro h
    rw [h] at hlen
    simp at hlen
  obtain ⟨starter, hstarter⟩ : ∃ a, (generateDeck shuffle).getLast? = some a := by
    cases hl : (generateDeck shuffle).getLast? with
    | none => exact absurd (List.getLast?_eq_none_iff.mp hl) hne
    | some a => exact ⟨a, rfl⟩
  have hmemBase : starter ∈ baseDeck := by
    have h1 : starter ∈ generateDeck shuffle := by
      obtain ⟨h, heq⟩ :=
        List.mem_getLast?_eq_getLast (show starter ∈ (generateDeck shuffle).getLast? from hstarter)
      rw [heq]
      exact List.getLast_mem h
    exact (hsh baseDeck).mem_iff.mp h1
  have hwc := baseDeck_wild_color starter hmemBase
  unfold initialState
  dsimp only
  rw [hstarter]
  refine ⟨_, starter, rfl, rfl, ?_, ?_, by simp, rfl,
    fun prev => by unfold resetGame initialState; dsimp only; rw [hstarter]⟩
  · intro c hc
    show some (starter.color.getD UColor.red) = some c
    rw [hc]
    rfl
  · intro hw
    show some (starter.color.getD UColor.red) = some UColor.red
    rw [hwc.mp hw]
    rfl

/-- Witness for C10 with the identity shuffle. -/
theorem initial_wild_starter_witness :
    ∃ st starter, initialState id = some st ∧ st.discard = [starter] ∧
      (∀ c, starter.color = some c → st.currentColor = some c) ∧
      (starter.type = CardType.wild → st.currentColor = some UColor.red) ∧
      st.currentColor ≠ none ∧ st.selectedColor = none ∧
      (∀ prev, resetGame id prev = initialState id) :=
  initial_wild_starter id fun l => List.Perm.refl l

end Uno
